import Mathlib

/-!
Shallow embedding of the in-memory favourites store of
gioannid/platform-go-challenge (internal/repository/memory/memory.go and
internal/domain/favourite.go), together with theorems settling the frozen
claims about it.

Modelling conventions:
* `uuid.UUID` values become `Nat`.
* `time.Time` values become `Nat` ticks; operations that read the wall
  clock (`time.Now()`) take the current tick as an explicit `now` argument.
* Go maps become association lists `List (Nat × α)`; Go randomizes map
  iteration order, so the fixed list order here is one admissible
  iteration order.
* Go errors returned by the store become the `Err` inductive; methods that
  mutate the receiver become functions `Store → … → Except Err α × Store`,
  read-only methods drop the store from the result.
-/

/-- The `Asset` record of `internal/domain/asset.go`. `Type'` stands for the
Go field `Type` (a Lean keyword), whose `AssetType` values are plain strings
such as "chart"; the polymorphic `json.RawMessage` payload `Data` is
validated before it reaches the store and never interpreted by it, so it is
modelled as an opaque `Nat`. -/
structure Asset where
  ID : Nat
  Type' : String
  Description : String
  Data : Nat
  CreatedAt : Nat
  UpdatedAt : Nat
deriving DecidableEq, Repr

/-- The `Favourite` record of `internal/domain/favourite.go`. `Asset` is the
transient attached asset reference (`*Asset`, nil when not attached). -/
structure Favourite where
  ID : Nat
  UserID : Nat
  AssetID : Nat
  Asset : Option Asset
  CreatedAt : Nat
deriving DecidableEq, Repr

/-- The `PageQuery` record of `internal/domain/favourite.go`. `Limit` and
`Offset` are Go `int`s, modelled as `Int`. -/
structure PageQuery where
  Limit : Int
  Offset : Int
  SortBy : String
  Order : String
deriving DecidableEq, Repr

/-- NewPageQuery of `internal/domain/favourite.go`: applies the defaults
exactly as the Go code does. -/
def NewPageQuery (limit offset : Int) (sortBy order : String) : PageQuery :=
  let limit := if limit ≤ 0 ∨ limit > 1000 then 100 else limit
  let offset := if offset < 0 then 0 else offset
  let sortBy := if sortBy = "" then "created_at" else sortBy
  let order := if order ≠ "asc" ∧ order ≠ "desc" then "desc" else order
  { Limit := limit, Offset := offset, SortBy := sortBy, Order := order }

/-- The `MaxPageItems` configuration ceiling of `internal/config/config.go`,
read through `config.Get()` as `getIntEnv("MAX_PAGE_ITEMS", 100)`; the model
takes the default, i.e. an environment with `MAX_PAGE_ITEMS` unset. Note it
is 100, distinct from the hard-coded 1000 bound inside `NewPageQuery`. -/
def MaxPageItems : Nat := 100

/-- The Limit ceiling enforcement in `FavouriteService.ListFavourites`
(`internal/service/favourite_service.go`): `query.Limit` is capped at
`config.Get().MaxPageItems` before the query is forwarded to the store. -/
def enforceMaxPageItems (query : PageQuery) : PageQuery :=
  if query.Limit > (MaxPageItems : Int) then { query with Limit := (MaxPageItems : Int) }
  else query

/-- Domain-level store errors of `internal/domain/errors.go` that the memory
repository can return. -/
inductive Err where
  | notFound
  | alreadyExists
deriving DecidableEq, Repr

/-- Association-list lookup, the model of a Go map read `m[k]`. -/
def lookupA {α : Type} : List (Nat × α) → Nat → Option α
  | [], _ => none
  | (k, v) :: rest, key => if k = key then some v else lookupA rest key

/-- Association-list insert-or-replace, the model of a Go map write
`m[k] = v`. -/
def insertA {α : Type} : List (Nat × α) → Nat → α → List (Nat × α)
  | [], k, v => [(k, v)]
  | (k', v') :: rest, k, v =>
      if k' = k then (k, v) :: rest else (k', v') :: insertA rest k v

/-- Association-list erase, the model of a Go map `delete(m, k)`. -/
def eraseA {α : Type} : List (Nat × α) → Nat → List (Nat × α)
  | [], _ => []
  | (k', v') :: rest, k =>
      if k' = k then eraseA rest k else (k', v') :: eraseA rest k

/-- The state of `MemoryRepository`: `assets` indexed by assetID, and
`favourites` indexed first by userID, with each user's favourites indexed by
favouriteID. -/
structure Store where
  assets : List (Nat × Asset)
  favourites : List (Nat × List (Nat × Favourite))
deriving DecidableEq, Repr

/-- NewRepository: both maps empty. -/
def NewRepository : Store := { assets := [], favourites := [] }

/-- Type key used by the sort comparator: `favs[i].Asset.Type`. On the
`ListFavourites` path the asset is always attached; the `none` branch is
unreachable there and only totalizes the function. -/
def attachedType (f : Favourite) : String :=
  match f.Asset with
  | some a => a.Type'
  | none => ""

/-- Description key used by the sort comparator: `favs[i].Asset.Description`. -/
def attachedDescription (f : Favourite) : String :=
  match f.Asset with
  | some a => a.Description
  | none => ""

/-- The `sort.Slice` comparator closure inside `ListFavourites`. -/
def favLess (query : PageQuery) (x y : Favourite) : Bool :=
  match query.SortBy with
  | "type" =>
      if query.Order = "asc" then attachedType x < attachedType y
      else attachedType x > attachedType y
  | "description" =>
      if query.Order = "asc" then attachedDescription x < attachedDescription y
      else attachedDescription x > attachedDescription y
  | _ =>
      if query.Order = "asc" then x.CreatedAt < y.CreatedAt
      else x.CreatedAt > y.CreatedAt

/-- The pagination block of `ListFavourites` (`start := Offset`,
`end := Offset + Limit`, early empty page when `start` exceeds the length,
clamp of `end`, then the slice `favs[start:end]`). -/
def paginate (favs : List Favourite) (query : PageQuery) : List Favourite :=
  let start := query.Offset
  let stop := query.Offset + query.Limit
  if start > (favs.length : Int) then []
  else
    let stop := if stop > (favs.length : Int) then (favs.length : Int) else stop
    (favs.drop start.toNat).take (stop - start).toNat

/-- ListFavourites of `memory.go`: collects the user's favourites whose asset
exists (attaching the asset), counts them, sorts with the comparator, and
windows with `paginate`. Go's `sort.Slice` promises only an order consistent
with the comparator; insertion sort is one admissible outcome. -/
def ListFavourites (s : Store) (userID : Nat) (query : PageQuery) :
    Except Err (List Favourite × Nat) :=
  match lookupA s.favourites userID with
  | none => Except.ok ([], 0)
  | some userFavs =>
    let favs := userFavs.filterMap (fun p =>
      (lookupA s.assets p.2.AssetID).map (fun asset => { p.2 with Asset := some asset }))
    let total := favs.length
    let sorted := List.insertionSort (fun x y => favLess query x y = true) favs
    Except.ok (paginate sorted query, total)

/-- GetFavourite of `memory.go`. -/
def GetFavourite (s : Store) (userID favouriteID : Nat) : Except Err Favourite :=
  match lookupA s.favourites userID with
  | none => Except.error Err.notFound
  | some userFavs =>
    match lookupA userFavs favouriteID with
    | none => Except.error Err.notFound
    | some fav =>
      match lookupA s.assets fav.AssetID with
      | some asset => Except.ok { fav with Asset := some asset }
      | none => Except.ok fav

/-- AddFavourite of `memory.go`. The Go code initializes the user's sub-map
before the duplicate scan; that write is observable only on the success path
(a duplicate requires a non-empty sub-map), so the error branches return the
store unchanged. -/
def AddFavourite (s : Store) (favourite : Favourite) : Except Err Unit × Store :=
  if (lookupA s.assets favourite.AssetID).isNone then (Except.error Err.notFound, s)
  else
    let userFavs := (lookupA s.favourites favourite.UserID).getD []
    if userFavs.any (fun p => p.2.AssetID == favourite.AssetID) then
      (Except.error Err.alreadyExists, s)
    else
      (Except.ok (),
       { s with favourites :=
           insertA s.favourites favourite.UserID (insertA userFavs favourite.ID favourite) })

/-- RemoveFavourite of `memory.go`. The in-place `delete(userFavs, favouriteID)`
on the shared inner map becomes an insert of the erased sub-list. -/
def RemoveFavourite (s : Store) (userID favouriteID : Nat) : Except Err Unit × Store :=
  match lookupA s.favourites userID with
  | none => (Except.error Err.notFound, s)
  | some userFavs =>
    if (lookupA userFavs favouriteID).isNone then (Except.error Err.notFound, s)
    else
      (Except.ok (),
       { s with favourites := insertA s.favourites userID (eraseA userFavs favouriteID) })

/-- IsFavourite of `memory.go`. -/
def IsFavourite (s : Store) (userID assetID : Nat) : Bool :=
  match lookupA s.favourites userID with
  | none => false
  | some userFavs => userFavs.any (fun p => p.2.AssetID == assetID)

/-- GetAsset of `memory.go`. -/
def GetAsset (s : Store) (assetID : Nat) : Except Err Asset :=
  match lookupA s.assets assetID with
  | none => Except.error Err.notFound
  | some asset => Except.ok asset

/-- CreateAsset of `memory.go`. -/
def CreateAsset (s : Store) (asset : Asset) : Except Err Unit × Store :=
  if (lookupA s.assets asset.ID).isSome then (Except.error Err.alreadyExists, s)
  else (Except.ok (), { s with assets := insertA s.assets asset.ID asset })

/-- UpdateAssetDescription of `memory.go`; `now` is the value of
`time.Now()` at the call. -/
def UpdateAssetDescription (s : Store) (assetID : Nat) (description : String)
    (now : Nat) : Except Err Unit × Store :=
  match lookupA s.assets assetID with
  | none => (Except.error Err.notFound, s)
  | some asset =>
      let updated := { asset with Description := description, UpdatedAt := now }
      (Except.ok (), { s with assets := insertA s.assets assetID updated })

/-- DeleteAsset of `memory.go`: removes the asset, then walks every user's
sub-map and deletes every favourite whose `AssetID` matches. -/
def DeleteAsset (s : Store) (assetID : Nat) : Except Err Unit × Store :=
  if (lookupA s.assets assetID).isNone then (Except.error Err.notFound, s)
  else
    (Except.ok (),
     { assets := eraseA s.assets assetID,
       favourites := s.favourites.map (fun u =>
         (u.1, u.2.filter (fun p => !(p.2.AssetID == assetID)))) })

/-- Inner loop of Sanity: scan one user's favourites for an orphan, returning
the identifying triple (userID, favouriteID, assetID) of the first one. -/
def sanityScanUser (assets : List (Nat × Asset)) (userID : Nat) :
    List (Nat × Favourite) → Option (Nat × Nat × Nat)
  | [] => none
  | (favID, fav) :: rest =>
      if (lookupA assets fav.AssetID).isNone then some (userID, favID, fav.AssetID)
      else sanityScanUser assets userID rest

/-- Outer loop of Sanity over all users. -/
def sanityScan (assets : List (Nat × Asset)) :
    List (Nat × List (Nat × Favourite)) → Option (Nat × Nat × Nat)
  | [] => none
  | (userID, userFavs) :: rest =>
      match sanityScanUser assets userID userFavs with
      | some orphan => some orphan
      | none => sanityScan assets rest

/-- Sanity of `memory.go`: reports the identifying data of the first orphan
favourite found, or `none`. It reads the store and returns no new state. -/
def Sanity (s : Store) : Option (Nat × Nat × Nat) :=
  sanityScan s.assets s.favourites

/-- One public store operation together with its arguments; `getAsset` and
the other read-only operations are included because the reachability claim
quantifies over them. -/
inductive Op where
  | createAsset (asset : Asset)
  | getAsset (assetID : Nat)
  | updateAssetDescription (assetID : Nat) (description : String) (now : Nat)
  | deleteAsset (assetID : Nat)
  | addFavourite (favourite : Favourite)
  | removeFavourite (userID favouriteID : Nat)
  | isFavourite (userID assetID : Nat)
  | getFavourite (userID favouriteID : Nat)
  | listFavourites (userID : Nat) (query : PageQuery)
  | sanity
deriving DecidableEq

/-- State reached after running one operation (read-only operations leave the
state as is). -/
def applyOp (s : Store) : Op → Store
  | Op.createAsset asset => (CreateAsset s asset).2
  | Op.getAsset _ => s
  | Op.updateAssetDescription assetID description now =>
      (UpdateAssetDescription s assetID description now).2
  | Op.deleteAsset assetID => (DeleteAsset s assetID).2
  | Op.addFavourite favourite => (AddFavourite s favourite).2
  | Op.removeFavourite userID favouriteID => (RemoveFavourite s userID favouriteID).2
  | Op.isFavourite _ _ => s
  | Op.getFavourite _ _ => s
  | Op.listFavourites _ _ => s
  | Op.sanity => s

/-- Store states reachable from the empty repository by public operations. -/
inductive Reachable : Store → Prop where
  | empty : Reachable NewRepository
  | step (s : Store) (op : Op) : Reachable s → Reachable (applyOp s op)

/-- Referential integrity: every live favourite's `AssetID` resolves to a
live asset in the catalog. -/
def RefIntegrity (s : Store) : Prop :=
  ∀ u ∈ s.favourites, ∀ p ∈ u.2, (lookupA s.assets p.2.AssetID).isSome = true

instance (s : Store) : Decidable (RefIntegrity s) := by
  unfold RefIntegrity; infer_instance

theorem lookupA_insertA_self {α : Type} (l : List (Nat × α)) (k : Nat) (v : α) :
    lookupA (insertA l k v) k = some v := by
  induction l with
  | nil => simp [insertA, lookupA]
  | cons p rest ih =>
    obtain ⟨k', v'⟩ := p
    by_cases h : k' = k
    · simp [insertA, h, lookupA]
    · simp [insertA, h, lookupA, ih]

theorem lookupA_insertA_ne {α : Type} (l : List (Nat × α)) (k k' : Nat) (v : α)
    (h : k' ≠ k) : lookupA (insertA l k v) k' = lookupA l k' := by
  induction l with
  | nil => simp [insertA, lookupA, Ne.symm h]
  | cons p rest ih =>
    obtain ⟨k₀, v₀⟩ := p
    by_cases hk : k₀ = k
    · subst hk
      simp [insertA, lookupA, Ne.symm h]
    · simp only [insertA, if_neg hk, lookupA]
      by_cases hk' : k₀ = k'
      · simp [hk']
      · simp [hk', ih]

theorem lookupA_eraseA_self {α : Type} (l : List (Nat × α)) (k : Nat) :
    lookupA (eraseA l k) k = none := by
  induction l with
  | nil => simp [eraseA, lookupA]
  | cons p rest ih =>
    obtain ⟨k', v'⟩ := p
    by_cases h : k' = k
    · simp [eraseA, h, ih]
    · simp [eraseA, h, lookupA, ih]

theorem lookupA_eraseA_ne {α : Type} (l : List (Nat × α)) (k k' : Nat)
    (h : k' ≠ k) : lookupA (eraseA l k) k' = lookupA l k' := by
  induction l with
  | nil => simp [eraseA]
  | cons p rest ih =>
    obtain ⟨k₀, v₀⟩ := p
    by_cases hk : k₀ = k
    · subst hk
      simp [eraseA, lookupA, Ne.symm h, ih]
    · simp only [eraseA, if_neg hk, lookupA]
      by_cases hk' : k₀ = k'
      · simp [hk']
      · simp [hk', ih]

theorem mem_insertA {α : Type} {l : List (Nat × α)} {k : Nat} {v : α} {p : Nat × α}
    (h : p ∈ insertA l k v) : p = (k, v) ∨ p ∈ l := by
  induction l with
  | nil => simpa [insertA] using h
  | cons q rest ih =>
    obtain ⟨k₀, v₀⟩ := q
    by_cases hk : k₀ = k
    · simp only [insertA, if_pos hk, List.mem_cons] at h
      rcases h with h | h
      · exact Or.inl h
      · exact Or.inr (List.mem_cons_of_mem _ h)
    · simp only [insertA, if_neg hk, List.mem_cons] at h
      rcases h with h | h
      · exact Or.inr (by simp [h])
      · rcases ih h with h' | h'
        · exact Or.inl h'
        · exact Or.inr (List.mem_cons_of_mem _ h')

theorem mem_eraseA {α : Type} {l : List (Nat × α)} {k : Nat} {p : Nat × α}
    (h : p ∈ eraseA l k) : p ∈ l := by
  induction l with
  | nil => simp [eraseA] at h
  | cons q rest ih =>
    obtain ⟨k₀, v₀⟩ := q
    by_cases hk : k₀ = k
    · simp only [eraseA, if_pos hk] at h
      exact List.mem_cons_of_mem _ (ih h)
    · simp only [eraseA, if_neg hk, List.mem_cons] at h
      rcases h with h | h
      · simp [h]
      · exact List.mem_cons_of_mem _ (ih h)

theorem lookupA_mem {α : Type} {l : List (Nat × α)} {k : Nat} {v : α}
    (h : lookupA l k = some v) : (k, v) ∈ l := by
  induction l with
  | nil => simp [lookupA] at h
  | cons q rest ih =>
    obtain ⟨k₀, v₀⟩ := q
    by_cases hk : k₀ = k
    · subst hk
      simp [lookupA] at h
      subst h
      exact List.mem_cons_self _ _
    · simp only [lookupA, if_neg hk] at h
      exact List.mem_cons_of_mem _ (ih h)

theorem lookupA_isSome_insertA {α : Type} (l : List (Nat × α)) (k k' : Nat) (v : α)
    (h : (lookupA l k').isSome = true) : (lookupA (insertA l k v) k').isSome = true := by
  by_cases hk : k' = k
  · subst hk; simp [lookupA_insertA_self]
  · rwa [lookupA_insertA_ne _ _ _ _ hk]

theorem lookupA_isSome_eraseA {α : Type} (l : List (Nat × α)) (k k' : Nat)
    (h : (lookupA l k').isSome = true) (hne : k' ≠ k) :
    (lookupA (eraseA l k) k').isSome = true := by
  rwa [lookupA_eraseA_ne _ _ _ hne]

theorem lookupA_map_val {α β : Type} (l : List (Nat × α)) (g : α → β) (k : Nat) :
    lookupA (l.map (fun u => (u.1, g u.2))) k = (lookupA l k).map g := by
  induction l with
  | nil => simp [lookupA]
  | cons q rest ih =>
    obtain ⟨k₀, v₀⟩ := q
    by_cases hk : k₀ = k
    · simp [lookupA, hk]
    · simp [lookupA, hk, ih]

theorem length_filterMap_of_all_isSome {α β : Type} (l : List α) (g : α → Option β)
    (h : ∀ x ∈ l, (g x).isSome = true) : (l.filterMap g).length = l.length := by
  induction l with
  | nil => simp
  | cons x rest ih =>
    have hx := h x (by simp)
    obtain ⟨y, hy⟩ := Option.isSome_iff_exists.mp hx
    rw [List.filterMap_cons, hy]
    simp [ih (fun z hz => h z (List.mem_cons_of_mem _ hz))]

/-- Concrete fixtures used by the witness theorems. -/
def wAsset : Asset :=
  { ID := 1, Type' := "chart", Description := "d", Data := 0, CreatedAt := 0, UpdatedAt := 0 }

def wAsset2 : Asset :=
  { ID := 2, Type' := "insight", Description := "e", Data := 0, CreatedAt := 1, UpdatedAt := 1 }

def wFav : Favourite :=
  { ID := 10, UserID := 7, AssetID := 1, Asset := none, CreatedAt := 2 }

def wStore : Store := { assets := [(1, wAsset)], favourites := [(7, [(10, wFav)])] }

/-- C4: CreateAsset with an ID already present fails with AlreadyExists and
leaves the entire store state unchanged; with a fresh ID it succeeds, and a
subsequent GetAsset of that ID returns a record with identical ID, Type and
Description. -/
theorem c4_createAsset_uniqueness (s : Store) (a : Asset) :
    ((lookupA s.assets a.ID).isSome = true →
        CreateAsset s a = (Except.error Err.alreadyExists, s)) ∧
    (lookupA s.assets a.ID = none →
        (CreateAsset s a).1 = Except.ok () ∧
        ∃ b : Asset, GetAsset (CreateAsset s a).2 a.ID = Except.ok b ∧
          b.ID = a.ID ∧ b.Type' = a.Type' ∧ b.Description = a.Description) := by
  constructor
  · intro h
    simp [CreateAsset, h]
  · intro h
    have h' : (lookupA s.assets a.ID).isSome = false := by simp [h]
    refine ⟨by simp [CreateAsset, h'], a, ?_, rfl, rfl, rfl⟩
    simp [CreateAsset, h', GetAsset, lookupA_insertA_self]

/-- Witness for C4 at concrete inputs: a duplicate create on `wStore` and a
fresh create on the empty repository. -/
theorem c4_createAsset_uniqueness_witness :
    CreateAsset wStore wAsset = (Except.error Err.alreadyExists, wStore) ∧
    ((CreateAsset NewRepository wAsset2).1 = Except.ok () ∧
      ∃ b : Asset, GetAsset (CreateAsset NewRepository wAsset2).2 wAsset2.ID = Except.ok b ∧
        b.ID = wAsset2.ID ∧ b.Type' = wAsset2.Type' ∧ b.Description = wAsset2.Description) :=
  ⟨(c4_createAsset_uniqueness wStore wAsset).1 (by decide),
   (c4_createAsset_uniqueness NewRepository wAsset2).2 (by decide)⟩

/-- C2: DeleteAsset on an absent id fails NotFound leaving the state
unchanged; on a present id it succeeds, the asset is gone (GetAsset fails
NotFound), and in every user's favourites exactly the entries referencing the
deleted asset are removed while all others are untouched. -/
theorem c2_deleteAsset_cascade (s : Store) (aid : Nat) :
    (lookupA s.assets aid = none → DeleteAsset s aid = (Except.error Err.notFound, s)) ∧
    ((lookupA s.assets aid).isSome = true →
        (DeleteAsset s aid).1 = Except.ok () ∧
        GetAsset (DeleteAsset s aid).2 aid = Except.error Err.notFound ∧
        (∀ u ∈ (DeleteAsset s aid).2.favourites, ∀ p ∈ u.2, p.2.AssetID ≠ aid) ∧
        (∀ userID, lookupA (DeleteAsset s aid).2.favourites userID =
           (lookupA s.favourites userID).map
             (fun favs => favs.filter (fun p => !(p.2.AssetID == aid))))) := by
  constructor
  · intro h
    simp [DeleteAsset, h]
  · intro h
    have h' : (lookupA s.assets aid).isNone = false := by
      cases hx : lookupA s.assets aid <;> simp_all
    have hD : (DeleteAsset s aid).2 =
        { assets := eraseA s.assets aid,
          favourites := s.favourites.map (fun u =>
            (u.1, u.2.filter (fun p => !(p.2.AssetID == aid)))) } := by
      simp [DeleteAsset, h']
    refine ⟨by simp [DeleteAsset, h'], ?_, ?_, ?_⟩
    · rw [hD]
      simp [GetAsset, lookupA_eraseA_self]
    · intro u hu p hp
      rw [hD] at hu
      simp only [List.mem_map] at hu
      obtain ⟨u₀, _, rfl⟩ := hu
      have hmem := List.mem_filter.mp hp
      simpa using hmem.2
    · intro userID
      rw [hD]
      exact lookupA_map_val s.favourites _ userID

/-- Witness for C2 at concrete inputs: deleting a missing asset, and deleting
asset 1 of `wStore`, which also removes user 7's favourite of it. -/
theorem c2_deleteAsset_cascade_witness :
    DeleteAsset NewRepository 5 = (Except.error Err.notFound, NewRepository) ∧
    ((DeleteAsset wStore 1).1 = Except.ok () ∧
      GetAsset (DeleteAsset wStore 1).2 1 = Except.error Err.notFound ∧
      (∀ u ∈ (DeleteAsset wStore 1).2.favourites, ∀ p ∈ u.2, p.2.AssetID ≠ 1) ∧
      (∀ userID, lookupA (DeleteAsset wStore 1).2.favourites userID =
         (lookupA wStore.favourites userID).map
           (fun favs => favs.filter (fun p => !(p.2.AssetID == 1))))) :=
  ⟨(c2_deleteAsset_cascade NewRepository 5).1 (by decide),
   (c2_deleteAsset_cascade wStore 1).2 (by decide)⟩

/-- C3: AddFavourite fails NotFound when the referenced asset is not live;
with a live asset it fails AlreadyExists exactly when the user already has a
favourite for the same (UserID, AssetID) pair, and otherwise succeeds,
inserting the record under that user's sub-index while leaving every other
user's favourites and the asset catalog unchanged. -/
theorem c3_addFavourite_contract (s : Store) (f : Favourite) :
    (lookupA s.assets f.AssetID = none →
        AddFavourite s f = (Except.error Err.notFound, s)) ∧
    ((lookupA s.assets f.AssetID).isSome = true →
      ((∃ p ∈ (lookupA s.favourites f.UserID).getD [], p.2.AssetID = f.AssetID) →
          AddFavourite s f = (Except.error Err.alreadyExists, s)) ∧
      ((∀ p ∈ (lookupA s.favourites f.UserID).getD [], p.2.AssetID ≠ f.AssetID) →
          (AddFavourite s f).1 = Except.ok () ∧
          lookupA (AddFavourite s f).2.favourites f.UserID =
            some (insertA ((lookupA s.favourites f.UserID).getD []) f.ID f) ∧
          (∀ userID, userID ≠ f.UserID →
            lookupA (AddFavourite s f).2.favourites userID = lookupA s.favourites userID) ∧
          (AddFavourite s f).2.assets = s.assets)) := by
  constructor
  · intro h
    simp [AddFavourite, h]
  · intro h
    have h' : (lookupA s.assets f.AssetID).isNone = false := by
      cases hx : lookupA s.assets f.AssetID <;> simp_all
    constructor
    · intro hdup
      have hany : ((lookupA s.favourites f.UserID).getD []).any
          (fun p => p.2.AssetID == f.AssetID) = true := by
        rw [List.any_eq_true]
        obtain ⟨p, hp, hpa⟩ := hdup
        exact ⟨p, hp, by simp [hpa]⟩
      simp [AddFavourite, h', hany]
    · intro hnodup
      have hany : ((lookupA s.favourites f.UserID).getD []).any
          (fun p => p.2.AssetID == f.AssetID) = false := by
        rw [List.any_eq_false]
        intro p hp
        simp [hnodup p hp]
      refine ⟨by simp [AddFavourite, h', hany], ?_, ?_, ?_⟩
      · simp [AddFavourite, h', hany, lookupA_insertA_self]
      · intro userID hne
        simp [AddFavourite, h', hany, lookupA_insertA_ne _ _ _ _ hne]
      · simp [AddFavourite, h', hany]

/-- Witness for C3 at concrete inputs: asset 3 is missing from `wStore`,
asset 1 is already favourited by user 7, and a fresh favourite by user 8
succeeds. -/
theorem c3_addFavourite_contract_witness :
    AddFavourite wStore ({ wFav with ID := 11, AssetID := 3 }) =
      (Except.error Err.notFound, wStore) ∧
    AddFavourite wStore ({ wFav with ID := 11 }) =
      (Except.error Err.alreadyExists, wStore) ∧
    ((AddFavourite wStore ({ wFav with ID := 11, UserID := 8 })).1 = Except.ok () ∧
      lookupA (AddFavourite wStore ({ wFav with ID := 11, UserID := 8 })).2.favourites 8 =
        some (insertA ((lookupA wStore.favourites 8).getD []) 11
          ({ wFav with ID := 11, UserID := 8 })) ∧
      (∀ userID, userID ≠ 8 →
        lookupA (AddFavourite wStore ({ wFav with ID := 11, UserID := 8 })).2.favourites userID =
          lookupA wStore.favourites userID) ∧
      (AddFavourite wStore ({ wFav with ID := 11, UserID := 8 })).2.assets = wStore.assets) := by
  refine ⟨(c3_addFavourite_contract wStore _).1 (by decide),
    ((c3_addFavourite_contract wStore _).2 (by decide)).1 ?_,
    ((c3_addFavourite_contract wStore ({ wFav with ID := 11, UserID := 8 })).2
      (by decide)).2 (by decide)⟩
  exact ⟨(10, wFav), by decide, by decide⟩

/-- C7: UpdateAssetDescription fails NotFound on an absent asset leaving the
state unchanged; on a present asset it replaces the Description, sets
UpdatedAt to the current clock (which strictly exceeds the prior value as
long as the clock has advanced past it), and leaves CreatedAt, ID, Type,
Data, all other assets and all favourites unchanged. -/
theorem c7_updateAssetDescription_frame (s : Store) (aid : Nat) (text : String)
    (now : Nat) :
    (lookupA s.assets aid = none →
        UpdateAssetDescription s aid text now = (Except.error Err.notFound, s)) ∧
    (∀ a : Asset, lookupA s.assets aid = some a → a.UpdatedAt < now →
        (UpdateAssetDescription s aid text now).1 = Except.ok () ∧
        (∃ b : Asset,
          lookupA (UpdateAssetDescription s aid text now).2.assets aid = some b ∧
          b.Description = text ∧ b.UpdatedAt = now ∧ a.UpdatedAt < b.UpdatedAt ∧
          b.CreatedAt = a.CreatedAt ∧ b.ID = a.ID ∧ b.Type' = a.Type' ∧
          b.Data = a.Data) ∧
        (∀ k, k ≠ aid →
          lookupA (UpdateAssetDescription s aid text now).2.assets k =
            lookupA s.assets k) ∧
        (UpdateAssetDescription s aid text now).2.favourites = s.favourites) := by
  constructor
  · intro h
    simp [UpdateAssetDescription, h]
  · intro a ha hlt
    refine ⟨by simp [UpdateAssetDescription, ha], ?_, ?_, ?_⟩
    · refine ⟨{ a with Description := text, UpdatedAt := now }, ?_, rfl, rfl, hlt, rfl, rfl, rfl, rfl⟩
      simp [UpdateAssetDescription, ha, lookupA_insertA_self]
    · intro k hk
      simp [UpdateAssetDescription, ha, lookupA_insertA_ne _ _ _ _ hk]
    · simp [UpdateAssetDescription, ha]

/-- Witness for C7 at concrete inputs: updating a missing asset, and updating
asset 1 of `wStore` at clock tick 5. -/
theorem c7_updateAssetDescription_frame_witness :
    UpdateAssetDescription wStore 3 "t" 5 = (Except.error Err.notFound, wStore) ∧
    ((UpdateAssetDescription wStore 1 "t" 5).1 = Except.ok () ∧
      (∃ b : Asset,
        lookupA (UpdateAssetDescription wStore 1 "t" 5).2.assets 1 = some b ∧
        b.Description = "t" ∧ b.UpdatedAt = 5 ∧ wAsset.UpdatedAt < b.UpdatedAt ∧
        b.CreatedAt = wAsset.CreatedAt ∧ b.ID = wAsset.ID ∧ b.Type' = wAsset.Type' ∧
        b.Data = wAsset.Data) ∧
      (∀ k, k ≠ 1 →
        lookupA (UpdateAssetDescription wStore 1 "t" 5).2.assets k =
          lookupA wStore.assets k) ∧
      (UpdateAssetDescription wStore 1 "t" 5).2.favourites = wStore.favourites) :=
  ⟨(c7_updateAssetDescription_frame wStore 3 "t" 5).1 (by decide),
   (c7_updateAssetDescription_frame wStore 1 "t" 5).2 wAsset (by decide) (by decide)⟩

theorem sanityScanUser_eq_none (assets : List (Nat × Asset)) (userID : Nat)
    (favs : List (Nat × Favourite)) :
    sanityScanUser assets userID favs = none ↔
      ∀ p ∈ favs, (lookupA assets p.2.AssetID).isSome = true := by
  induction favs with
  | nil => simp [sanityScanUser]
  | cons q rest ih =>
    obtain ⟨favID, fav⟩ := q
    cases hx : lookupA assets fav.AssetID with
    | none =>
      constructor
      · intro h
        simp [sanityScanUser, hx] at h
      · intro hall
        have hco := hall (favID, fav) (List.mem_cons_self _ _)
        simp [hx] at hco
    | some a =>
      have hrw : sanityScanUser assets userID ((favID, fav) :: rest) =
          sanityScanUser assets userID rest := by
        simp [sanityScanUser, hx]
      rw [hrw, ih]
      constructor
      · intro hall p hp
        rcases List.mem_cons.mp hp with hp | hp
        · subst hp
          simp [hx]
        · exact hall p hp
      · intro hall p hp
        exact hall p (List.mem_cons_of_mem _ hp)

theorem sanityScanUser_some (assets : List (Nat × Asset)) (userID : Nat)
    (favs : List (Nat × Favourite)) (uid fid aid : Nat)
    (h : sanityScanUser assets userID favs = some (uid, fid, aid)) :
    uid = userID ∧
      ∃ f, (fid, f) ∈ favs ∧ f.AssetID = aid ∧ lookupA assets aid = none := by
  induction favs with
  | nil => simp [sanityScanUser] at h
  | cons q rest ih =>
    obtain ⟨favID, fav⟩ := q
    cases hx : lookupA assets fav.AssetID with
    | none =>
      simp only [sanityScanUser, hx, Option.isNone_none, if_true, Option.some.injEq,
        Prod.mk.injEq] at h
      obtain ⟨h1, h2, h3⟩ := h
      subst h1
      subst h2
      subst h3
      exact ⟨rfl, fav, List.mem_cons_self _ _, rfl, hx⟩
    | some a =>
      have hrw : sanityScanUser assets userID ((favID, fav) :: rest) =
          sanityScanUser assets userID rest := by
        simp [sanityScanUser, hx]
      rw [hrw] at h
      obtain ⟨h1, f, hf, hfa, hl⟩ := ih h
      exact ⟨h1, f, List.mem_cons_of_mem _ hf, hfa, hl⟩

theorem sanityScan_eq_none (assets : List (Nat × Asset))
    (favss : List (Nat × List (Nat × Favourite))) :
    sanityScan assets favss = none ↔
      ∀ u ∈ favss, ∀ p ∈ u.2, (lookupA assets p.2.AssetID).isSome = true := by
  induction favss with
  | nil => simp [sanityScan]
  | cons q rest ih =>
    obtain ⟨userID, favs⟩ := q
    cases hu : sanityScanUser assets userID favs with
    | some orphan =>
      constructor
      · intro h
        simp [sanityScan, hu] at h
      · intro hall
        exfalso
        obtain ⟨uid, fid, aid⟩ := orphan
        obtain ⟨h1, f, hf, hfa, hl⟩ :=
          sanityScanUser_some assets userID favs uid fid aid hu
        have hco := hall (userID, favs) (List.mem_cons_self _ _) (fid, f) hf
        rw [hfa, hl] at hco
        simp at hco
    | none =>
      have hrw : sanityScan assets ((userID, favs) :: rest) = sanityScan assets rest := by
        simp [sanityScan, hu]
      rw [hrw, ih]
      rw [sanityScanUser_eq_none] at hu
      constructor
      · intro hall u hmem
        rcases List.mem_cons.mp hmem with hmem | hmem
        · subst hmem
          exact hu
        · exact hall u hmem
      · intro hall u hmem
        exact hall u (List.mem_cons_of_mem _ hmem)

theorem sanityScan_some (assets : List (Nat × Asset))
    (favss : List (Nat × List (Nat × Favourite))) (uid fid aid : Nat)
    (h : sanityScan assets favss = some (uid, fid, aid)) :
    ∃ favs, (uid, favs) ∈ favss ∧
      ∃ f, (fid, f) ∈ favs ∧ f.AssetID = aid ∧ lookupA assets aid = none := by
  induction favss with
  | nil => simp [sanityScan] at h
  | cons q rest ih =>
    obtain ⟨userID, favs⟩ := q
    cases hu : sanityScanUser assets userID favs with
    | some orphan =>
      simp only [sanityScan, hu] at h
      have horphan := Option.some.inj h
      subst horphan
      obtain ⟨h1, f, hf, hfa, hl⟩ :=
        sanityScanUser_some assets userID favs uid fid aid hu
      exact ⟨favs, by simp [h1], f, hf, hfa, hl⟩
    | none =>
      simp only [sanityScan, hu] at h
      obtain ⟨favs2, hmem, hrest⟩ := ih h
      exact ⟨favs2, List.mem_cons_of_mem _ hmem, hrest⟩

/-- An orphan favourite at the given identifying triple: the user's sub-index
holds a favourite under `favouriteID` whose `AssetID` is `assetID`, and no
live asset has that id. -/
def IsOrphanAt (s : Store) (userID favouriteID assetID : Nat) : Prop :=
  ∃ favs, (userID, favs) ∈ s.favourites ∧
    ∃ f, (favouriteID, f) ∈ favs ∧ f.AssetID = assetID ∧
      lookupA s.assets assetID = none

/-- C9: Sanity reports an error exactly when some live favourite's AssetID
does not resolve to a live asset, and the report identifies a specific orphan
by user id, favourite id and asset id. Sanity is a pure reader: in this
embedding it returns only the diagnostic and no store, so it cannot mutate
state. -/
theorem c9_sanity_raises_iff (s : Store) :
    ((Sanity s).isSome = true ↔ ∃ uid fid aid, IsOrphanAt s uid fid aid) ∧
    (∀ uid fid aid, Sanity s = some (uid, fid, aid) → IsOrphanAt s uid fid aid) := by
  have hsome : ∀ uid fid aid, Sanity s = some (uid, fid, aid) → IsOrphanAt s uid fid aid := by
    intro uid fid aid h
    exact sanityScan_some s.assets s.favourites uid fid aid h
  refine ⟨⟨?_, ?_⟩, hsome⟩
  · intro h
    cases hx : Sanity s with
    | none => simp [hx] at h
    | some orphan =>
      obtain ⟨uid, fid, aid⟩ := orphan
      exact ⟨uid, fid, aid, hsome uid fid aid hx⟩
  · rintro ⟨uid, fid, aid, favs, hmem, f, hf, hfa, hl⟩
    cases hx : Sanity s with
    | some orphan => simp
    | none =>
      have hall := (sanityScan_eq_none s.assets s.favourites).mp hx
      have := hall (uid, favs) hmem (fid, f) hf
      rw [hfa, hl] at this
      simp at this

/-- Concrete store with an injected orphan favourite, as in the repository's
own Sanity test. -/
def orphanStore : Store :=
  { assets := [], favourites := [(2, [(4, { wFav with AssetID := 9 })])] }

/-- Witness for C9: on `orphanStore`, Sanity reports the orphan (2, 4, 9). -/
theorem c9_sanity_raises_iff_witness : IsOrphanAt orphanStore 2 4 9 :=
  (c9_sanity_raises_iff orphanStore).2 2 4 9 (by decide)

theorem refIntegrity_preserved (s : Store) (op : Op) (h : RefIntegrity s) :
    RefIntegrity (applyOp s op) := by
  cases op with
  | getAsset aid => exact h
  | isFavourite uid aid => exact h
  | getFavourite uid fid => exact h
  | listFavourites uid q => exact h
  | sanity => exact h
  | createAsset a =>
    by_cases hc : (lookupA s.assets a.ID).isSome = true
    · have h2 : applyOp s (Op.createAsset a) = s := by simp [applyOp, CreateAsset, hc]
      rw [h2]
      exact h
    · have hc' : (lookupA s.assets a.ID).isSome = false := by simpa using hc
      have h2 : applyOp s (Op.createAsset a) =
          { s with assets := insertA s.assets a.ID a } := by
        simp [applyOp, CreateAsset, hc']
      rw [h2]
      intro u hu p hp
      exact lookupA_isSome_insertA _ _ _ _ (h u hu p hp)
  | updateAssetDescription aid text now =>
    cases hx : lookupA s.assets aid with
    | none =>
      have h2 : applyOp s (Op.updateAssetDescription aid text now) = s := by
        simp [applyOp, UpdateAssetDescription, hx]
      rw [h2]
      exact h
    | some a =>
      have h2 : applyOp s (Op.updateAssetDescription aid text now) =
          { s with assets := insertA s.assets aid ({ a with Description := text, UpdatedAt := now }) } := by
        simp [applyOp, UpdateAssetDescription, hx]
      rw [h2]
      intro u hu p hp
      exact lookupA_isSome_insertA _ _ _ _ (h u hu p hp)
  | deleteAsset aid =>
    by_cases hc : (lookupA s.assets aid).isNone = true
    · have h2 : applyOp s (Op.deleteAsset aid) = s := by
        simp [applyOp, DeleteAsset, hc]
      rw [h2]
      exact h
    · have hc' : (lookupA s.assets aid).isNone = false := by
        cases hx : lookupA s.assets aid <;> simp_all
      have h2 : applyOp s (Op.deleteAsset aid) =
          { assets := eraseA s.assets aid,
            favourites := s.favourites.map (fun u => (u.1, u.2.filter (fun p => !(p.2.AssetID == aid)))) } := by
        simp [applyOp, DeleteAsset, hc']
      rw [h2]
      intro u hu p hp
      simp only [List.mem_map] at hu
      obtain ⟨u₀, hu₀, rfl⟩ := hu
      have hmem := List.mem_filter.mp hp
      have hne : p.2.AssetID ≠ aid := by simpa using hmem.2
      exact lookupA_isSome_eraseA _ _ _ (h u₀ hu₀ p hmem.1) hne
  | addFavourite f =>
    by_cases hc : (lookupA s.assets f.AssetID).isNone = true
    · have h2 : applyOp s (Op.addFavourite f) = s := by
        simp [applyOp, AddFavourite, hc]
      rw [h2]
      exact h
    · have hc' : (lookupA s.assets f.AssetID).isNone = false := by
        cases hx : lookupA s.assets f.AssetID <;> simp_all
      by_cases hd : ((lookupA s.favourites f.UserID).getD []).any
          (fun p => p.2.AssetID == f.AssetID) = true
      · have h2 : applyOp s (Op.addFavourite f) = s := by
          simp [applyOp, AddFavourite, hc', hd]
        rw [h2]
        exact h
      · have hd' : ((lookupA s.favourites f.UserID).getD []).any
            (fun p => p.2.AssetID == f.AssetID) = false := by simpa using hd
        have h2 : applyOp s (Op.addFavourite f) =
            { s with favourites := insertA s.favourites f.UserID (insertA ((lookupA s.favourites f.UserID).getD []) f.ID f) } := by
          simp [applyOp, AddFavourite, hc', hd']
        rw [h2]
        intro u hu p hp
        rcases mem_insertA hu with hu' | hu'
        · subst hu'
          rcases mem_insertA hp with hp' | hp'
          · subst hp'
            cases hx : lookupA s.assets f.AssetID <;> simp_all
          · cases hl : lookupA s.favourites f.UserID with
            | none => simp [hl] at hp'
            | some favs =>
              rw [hl] at hp'
              exact h (f.UserID, favs) (lookupA_mem hl) p hp'
        · exact h u hu' p hp
  | removeFavourite uid fid =>
    cases hl : lookupA s.favourites uid with
    | none =>
      have h2 : applyOp s (Op.removeFavourite uid fid) = s := by
        simp [applyOp, RemoveFavourite, hl]
      rw [h2]
      exact h
    | some favs =>
      by_cases hc : (lookupA favs fid).isNone = true
      · have h2 : applyOp s (Op.removeFavourite uid fid) = s := by
          simp [applyOp, RemoveFavourite, hl, hc]
        rw [h2]
        exact h
      · have hc' : (lookupA favs fid).isNone = false := by
          cases hx : lookupA favs fid <;> simp_all
        have h2 : applyOp s (Op.removeFavourite uid fid) =
            { s with favourites := insertA s.favourites uid (eraseA favs fid) } := by
          simp [applyOp, RemoveFavourite, hl, hc']
        rw [h2]
        intro u hu p hp
        rcases mem_insertA hu with hu' | hu'
        · subst hu'
          exact h (uid, favs) (lookupA_mem hl) p (mem_eraseA hp)
        · exact h u hu' p hp

/-- C1: every store state reachable from the empty repository by the public
operations satisfies referential integrity (every live favourite's AssetID
resolves to a live asset), and every single operation preserves that
invariant. -/
theorem c1_referential_integrity_invariant :
    (∀ (s : Store) (op : Op), RefIntegrity s → RefIntegrity (applyOp s op)) ∧
    (∀ s : Store, Reachable s → RefIntegrity s) := by
  refine ⟨refIntegrity_preserved, ?_⟩
  intro s hs
  induction hs with
  | empty =>
    intro u hu p hp
    simp [NewRepository] at hu
  | step s' op hr ih => exact refIntegrity_preserved s' op ih

/-- Witness for C1: the state reached by creating an asset and favouriting it
from the empty repository is reachable and satisfies the invariant. -/
theorem c1_referential_integrity_invariant_witness :
    RefIntegrity (applyOp (applyOp NewRepository (Op.createAsset wAsset))
      (Op.addFavourite wFav)) :=
  c1_referential_integrity_invariant.2 _
    (Reachable.step _ (Op.addFavourite wFav)
      (Reachable.step NewRepository (Op.createAsset wAsset) Reachable.empty))

/-- The collection phase of `ListFavourites`: the user's favourites whose
referenced asset currently exists, each with its asset attached. -/
def liveFavourites (s : Store) (userID : Nat) : List Favourite :=
  ((lookupA s.favourites userID).getD []).filterMap (fun p =>
    (lookupA s.assets p.2.AssetID).map (fun asset => { p.2 with Asset := some asset }))

theorem paginate_length (l : List Favourite) (q : PageQuery)
    (hL : 1 ≤ q.Limit) (hO : 0 ≤ q.Offset) :
    (paginate l q).length = min q.Limit.toNat (l.length - q.Offset.toNat) := by
  simp only [paginate]
  split_ifs with h1 h2 <;>
    simp only [List.length_take, List.length_drop, List.length_nil] <;> omega

theorem paginate_subset (l : List Favourite) (q : PageQuery) :
    ∀ f ∈ paginate l q, f ∈ l := by
  intro f hf
  simp only [paginate] at hf
  split_ifs at hf
  · simp at hf
  · exact List.drop_subset _ _ (List.take_subset _ _ hf)
  · exact List.drop_subset _ _ (List.take_subset _ _ hf)

theorem paginate_nil (q : PageQuery) : paginate [] q = [] := by
  simp only [paginate]
  split_ifs <;> simp

theorem paginate_offset_beyond (l : List Favourite) (q : PageQuery)
    (h : q.Offset > (l.length : Int)) : paginate l q = [] := by
  simp only [paginate]
  rw [if_pos h]

theorem listFavourites_eq (s : Store) (userID : Nat) (q : PageQuery) :
    ListFavourites s userID q =
      Except.ok (paginate (List.insertionSort (fun x y => favLess q x y = true)
        (liveFavourites s userID)) q, (liveFavourites s userID).length) := by
  cases hl : lookupA s.favourites userID with
  | none =>
    have hlive : liveFavourites s userID = [] := by simp [liveFavourites, hl]
    simp [ListFavourites, hl, hlive, paginate_nil]
  | some userFavs =>
    have hlive : liveFavourites s userID = userFavs.filterMap (fun p =>
        (lookupA s.assets p.2.AssetID).map (fun asset => { p.2 with Asset := some asset })) := by
      simp [liveFavourites, hl]
    simp [ListFavourites, hl, hlive]

/-- C10: ListFavourites always returns a nil error; its page and total are
computed over exactly the user's favourites whose referenced asset exists
(orphans are skipped and excluded from the total), and a user with no
favourites gets an empty page with total 0 rather than an error. -/
theorem c10_listFavourites_totality (s : Store) (userID : Nat) (q : PageQuery)
    (hL : 1 ≤ q.Limit) (hO : 0 ≤ q.Offset) :
    ∃ page total, ListFavourites s userID q = Except.ok (page, total) ∧
      total = (liveFavourites s userID).length ∧
      (∀ f ∈ page, f ∈ liveFavourites s userID) ∧
      (lookupA s.favourites userID = none → page = [] ∧ total = 0) := by
  refine ⟨_, _, listFavourites_eq s userID q, rfl, ?_, ?_⟩
  · intro f hf
    have hmem := paginate_subset _ q f hf
    exact (List.perm_insertionSort _ _).subset hmem
  · intro hl
    have hlive : liveFavourites s userID = [] := by simp [liveFavourites, hl]
    rw [hlive]
    exact ⟨paginate_nil q, rfl⟩

/-- Witness for C10: user 7 of `wStore` has one favourite of the live asset 1,
and user 9 has none. -/
theorem c10_listFavourites_totality_witness :
    (∃ page total, ListFavourites wStore 7 (NewPageQuery 5 0 "" "") = Except.ok (page, total) ∧
      total = (liveFavourites wStore 7).length ∧
      (∀ f ∈ page, f ∈ liveFavourites wStore 7) ∧
      (lookupA wStore.favourites 7 = none → page = [] ∧ total = 0)) ∧
    (∃ page total, ListFavourites wStore 9 (NewPageQuery 5 0 "" "") = Except.ok (page, total) ∧
      total = (liveFavourites wStore 9).length ∧
      (∀ f ∈ page, f ∈ liveFavourites wStore 9) ∧
      (lookupA wStore.favourites 9 = none → page = [] ∧ total = 0)) :=
  ⟨c10_listFavourites_totality wStore 7 (NewPageQuery 5 0 "" "") (by decide) (by decide),
   c10_listFavourites_totality wStore 9 (NewPageQuery 5 0 "" "") (by decide) (by decide)⟩

/-- C5: for a normalized query, on any store whose favourites for the user
all reference live assets (the invariant every reachable store satisfies),
the returned total is the number of the user's favourites before pagination,
the page length is min(Limit, max(0, total - Offset)), and an Offset beyond
the total gives an empty page with the total unchanged. -/
theorem c5_pagination_evaluator (s : Store) (userID : Nat) (q : PageQuery)
    (hL : 1 ≤ q.Limit) (hO : 0 ≤ q.Offset)
    (hri : ∀ p ∈ (lookupA s.favourites userID).getD [],
      (lookupA s.assets p.2.AssetID).isSome = true) :
    ∃ page total, ListFavourites s userID q = Except.ok (page, total) ∧
      total = ((lookupA s.favourites userID).getD []).length ∧
      page.length = min q.Limit.toNat (total - q.Offset.toNat) ∧
      (q.Offset > (total : Int) → page = []) := by
  have htotal : (liveFavourites s userID).length =
      ((lookupA s.favourites userID).getD []).length := by
    apply length_filterMap_of_all_isSome
    intro p hp
    have := hri p hp
    simp [this]
  have hsortlen : (List.insertionSort (fun x y => favLess q x y = true)
      (liveFavourites s userID)).length = (liveFavourites s userID).length :=
    (List.perm_insertionSort _ _).length_eq
  refine ⟨_, _, listFavourites_eq s userID q, htotal, ?_, ?_⟩
  · rw [paginate_length _ q hL hO, hsortlen, htotal]
  · intro hbeyond
    apply paginate_offset_beyond
    rw [hsortlen]
    exact hbeyond

/-- Witness for C5 on `wStore`, user 7 (one favourite, live asset),
query Limit 5 Offset 0. -/
theorem c5_pagination_evaluator_witness :
    ∃ page total, ListFavourites wStore 7 (NewPageQuery 5 0 "" "") = Except.ok (page, total) ∧
      total = ((lookupA wStore.favourites 7).getD []).length ∧
      page.length = min (NewPageQuery 5 0 "" "").Limit.toNat
        (total - (NewPageQuery 5 0 "" "").Offset.toNat) ∧
      ((NewPageQuery 5 0 "" "").Offset > (total : Int) → page = []) :=
  c5_pagination_evaluator wStore 7 (NewPageQuery 5 0 "" "") (by decide) (by decide) (by decide)

/-- Sort-key whitelist for the asset catalog, from §4.1 of the spec. -/
def assetSortWhitelist : List String := ["created_at", "updated_at", "type", "description"]

/-- Sort-key whitelist for favourite listing, from §4.2 of the spec. -/
def favouriteSortWhitelist : List String := ["created_at", "type", "description"]

/-- C6 counterexample: at limit 500 and sort key "bogus", the constructed
query's Limit is 500, above the configured MaxPageItems of 100 (NewPageQuery
only rejects values above its hard-coded 1000), and its SortBy is the
non-whitelisted input passed through unchanged: both raw values reach the
store as constructed. -/
theorem c6_normalization_counterexample :
    (NewPageQuery 500 0 "bogus" "asc").Limit = 500 ∧
    ¬ (NewPageQuery 500 0 "bogus" "asc").Limit ≤ (MaxPageItems : Int) ∧
    (NewPageQuery 500 0 "bogus" "asc").SortBy = "bogus" ∧
    "bogus" ∉ assetSortWhitelist ∧ "bogus" ∉ favouriteSortWhitelist := by
  refine ⟨?_, ?_, ?_, ?_, ?_⟩
  · simp [NewPageQuery]
  · simp [NewPageQuery, MaxPageItems]
  · simp [NewPageQuery]
  · simp [assetSortWhitelist]
  · simp [favouriteSortWhitelist]

/-- C6 amended: NewPageQuery clamps Limit into [1, 1000] (default 100 when
invalid) — 1000 being its own hard-coded bound, not the configured
MaxPageItems = 100, which only the service layer enforces on the query
before forwarding it to the store — makes Offset non-negative (default 0)
and Order one of asc/desc (default desc), and defaults SortBy to created_at
only when the input is the empty string: any other invalid sort key is
passed through to the store unvalidated (where the evaluator treats it as
created_at). -/
theorem c6_pageQuery_normalization (limit offset : Int) (sortBy order : String) :
    1 ≤ (NewPageQuery limit offset sortBy order).Limit ∧
    (NewPageQuery limit offset sortBy order).Limit ≤ 1000 ∧
    1 ≤ (enforceMaxPageItems (NewPageQuery limit offset sortBy order)).Limit ∧
    (enforceMaxPageItems (NewPageQuery limit offset sortBy order)).Limit ≤ (MaxPageItems : Int) ∧
    0 ≤ (NewPageQuery limit offset sortBy order).Offset ∧
    ((NewPageQuery limit offset sortBy order).Order = "asc" ∨
      (NewPageQuery limit offset sortBy order).Order = "desc") ∧
    (NewPageQuery limit offset sortBy order).SortBy =
      (if sortBy = "" then "created_at" else sortBy) := by
  simp only [NewPageQuery, enforceMaxPageItems, MaxPageItems]
  refine ⟨?_, ?_, ?_, ?_, ?_, ?_, trivial⟩
  · split_ifs <;> omega
  · split_ifs <;> omega
  · split_ifs <;> simp <;> omega
  · split_ifs <;> simp <;> omega
  · split_ifs <;> omega
  · split_ifs with h
    · exact Or.inr rfl
    · rcases not_and_or.mp h with h | h
      · exact Or.inl (not_not.mp h)
      · exact Or.inr (not_not.mp h)

/-- Favourite record used in the C8 counterexample. -/
def c8Fav : Favourite := { ID := 1, UserID := 2, AssetID := 3, Asset := none, CreatedAt := 0 }

/-- Store holding an orphan favourite: user 2's favourite 1 references the
absent asset 3 (the repository's own Sanity test builds such a state
by hand). -/
def c8Store : Store := { assets := [], favourites := [(2, [(1, c8Fav)])] }

/-- C8 counterexample: on `c8Store`, GetFavourite neither fails NotFound nor
returns the record with its asset attached by a fresh lookup — it returns
the stored record without attachment and no error. -/
theorem c8_getFavourite_counterexample :
    ¬ (GetFavourite c8Store 2 1 = Except.error Err.notFound ∨
       ∃ a : Asset, lookupA c8Store.assets c8Fav.AssetID = some a ∧
         GetFavourite c8Store 2 1 = Except.ok ({ c8Fav with Asset := some a })) := by
  intro h
  rcases h with h | ⟨a, ha, _⟩
  · simp [GetFavourite, c8Store, c8Fav, lookupA] at h
  · simp [c8Store, lookupA] at ha

/-- C8 amended: GetFavourite fails NotFound when the user has no favourites
or the favourite id is absent; otherwise it returns the record, with the
current asset attached by a fresh lookup when that asset exists, and as
stored without attachment (and no error) when the referenced asset is
missing. -/
theorem c8_getFavourite_contract (s : Store) (userID favouriteID : Nat) :
    (lookupA s.favourites userID = none →
        GetFavourite s userID favouriteID = Except.error Err.notFound) ∧
    (∀ userFavs, lookupA s.favourites userID = some userFavs →
      (lookupA userFavs favouriteID = none →
          GetFavourite s userID favouriteID = Except.error Err.notFound) ∧
      (∀ fav, lookupA userFavs favouriteID = some fav →
        (∀ a, lookupA s.assets fav.AssetID = some a →
            GetFavourite s userID favouriteID = Except.ok ({ fav with Asset := some a })) ∧
        (lookupA s.assets fav.AssetID = none →
            GetFavourite s userID favouriteID = Except.ok fav))) := by
  refine ⟨?_, ?_⟩
  · intro h
    simp [GetFavourite, h]
  · intro userFavs hu
    refine ⟨?_, ?_⟩
    · intro h
      simp [GetFavourite, hu, h]
    · intro fav hf
      refine ⟨?_, ?_⟩
      · intro a ha
        simp [GetFavourite, hu, hf, ha]
      · intro ha
        simp [GetFavourite, hu, hf, ha]

/-- Witness for C8 (amended) covering all three outcomes: missing user,
attached asset, and orphan favourite returned as stored. -/
theorem c8_getFavourite_contract_witness :
    GetFavourite wStore 9 1 = Except.error Err.notFound ∧
    GetFavourite wStore 7 10 = Except.ok ({ wFav with Asset := some wAsset }) ∧
    GetFavourite c8Store 2 1 = Except.ok c8Fav :=
  ⟨(c8_getFavourite_contract wStore 9 1).1 (by decide),
   (((c8_getFavourite_contract wStore 7 10).2 ([(10, wFav)]) (by decide)).2 wFav
     (by decide)).1 wAsset (by decide),
   (((c8_getFavourite_contract c8Store 2 1).2 ([(1, c8Fav)]) (by decide)).2 c8Fav
     (by decide)).2 (by decide)⟩
